import Mathlib

/-!
Shallow embedding of the SB Notes personal note manager
(`sbnotes.py`, terminal front end, and `sbnotes_web.py`, Streamlit front
end).  Python strings are modelled as `List Char` (Python slices, `len`
and comparisons act on code points, exactly as `List Char` operations
do).  The JSON store is modelled by the `Store` structure; Python dicts
appearing in the store (`classes`, `note_types`) are insertion-ordered
association lists.  External effects (the PDF parser, the two AI calls,
the filesystem) are modelled by explicit inputs describing their
outcomes.
-/

set_option maxHeartbeats 1000000
set_option maxRecDepth 16384

namespace SBNotes

/-- Python strings as lists of code points. -/
abbrev PyStr := List Char

/-- The whitespace characters removed by Python `str.strip()` (ASCII
range; `'\x0b'` and `'\x0c'` written via `Char.ofNat`). -/
def isPySpace (c : Char) : Bool :=
  c == ' ' || c == '\t' || c == '\n' || c == '\r' ||
  c == Char.ofNat 11 || c == Char.ofNat 12

/-- Python `str.lstrip()`. -/
def pyLStrip (s : PyStr) : PyStr := s.dropWhile isPySpace

/-- Python `str.rstrip()`. -/
def pyRStrip (s : PyStr) : PyStr := (s.reverse.dropWhile isPySpace).reverse

/-- Python `str.strip()`. -/
def pyStrip (s : PyStr) : PyStr := pyRStrip (pyLStrip s)

/-- Python `str.lower()`; `Char.toLower` agrees with Python on the ASCII
letters used throughout the tool. -/
def pyLower (s : PyStr) : PyStr := s.map Char.toLower

/-- Python string `<=` (lexicographic comparison of code points); used
to model `list.sort(key=lambda x: x["upload_date"])`. -/
def lexLe : PyStr → PyStr → Bool
  | [], _ => true
  | _ :: _, [] => false
  | a :: as, b :: bs =>
    if a.toNat < b.toNat then true
    else if b.toNat < a.toNat then false
    else lexLe as bs

/-- Python `repr` of a string without escape-worthy characters, as
produced inside `f"... {note['analysis'].get('key_topics', [])}"`. -/
def pyRepr (s : PyStr) : PyStr := '\'' :: s ++ ['\'']

/-- Python `str` of a list of strings (the f-string rendering of the
`key_topics` list in `search_notes`). -/
def pyReprList (xs : List PyStr) : PyStr :=
  '[' :: (List.intercalate (", ".data) (xs.map pyRepr)) ++ [']']

/-- The `analysis` record produced by `_analyze_notes_with_ai` (seven
fixed keys). -/
structure Analysis where
  summary : PyStr
  key_topics : List PyStr
  important_concepts : List PyStr
  difficulty_level : PyStr
  estimated_study_time : PyStr
  related_topics : List PyStr
  transcription_quality : PyStr
deriving DecidableEq

/-- One note record of the JSON store (`note_entry` in both
`upload_notes` methods). -/
structure NoteEntry where
  id : PyStr
  class_name : PyStr
  note_type : PyStr
  upload_date : PyStr
  file_path : PyStr
  analysis : Analysis
  text_preview : PyStr
deriving DecidableEq

/-- One class aggregate of the JSON store (`self.notes["classes"][name]`). -/
structure ClassInfo where
  total_notes : Nat
  note_types : List (PyStr × Nat)
  last_updated : PyStr
deriving DecidableEq

/-- The whole JSON store `{"notes": [...], "classes": {...}}`.  The
`classes` dict is an insertion-ordered association list. -/
structure Store where
  notes : List NoteEntry
  classes : List (PyStr × ClassInfo)
deriving DecidableEq

/-- Python dict assignment `d[k] = v`: update the existing entry in
place, or append a new entry at the end. -/
def dinsert {α : Type} (k : PyStr) (v : α) : List (PyStr × α) → List (PyStr × α)
  | [] => [(k, v)]
  | (k', v') :: rest => if k == k' then (k, v) :: rest else (k', v') :: dinsert k v rest

/-- The store mutation performed by `NoteManager.upload_notes` after
text extraction and AI analysis (`sbnotes.py` lines 234-278).  Returns
`none` when the workflow aborts (`if not text.strip(): return`): the
store is left untouched and `_save_notes` is never called.  On success
returns the mutated store that `_save_notes` persists. -/
def upload_notes (st : Store) (class_name note_type timestamp : PyStr)
    (text : PyStr) (analysis : Analysis) : Option Store :=
  if pyStrip text = [] then none
  else
    let note_id := class_name ++ "_".data ++ timestamp
    let upload_path := "uploads/".data ++ note_id ++ ".pdf".data
    let note_entry : NoteEntry :=
      { id := note_id
        class_name := class_name
        note_type := note_type
        upload_date := timestamp
        file_path := upload_path
        analysis := analysis
        text_preview := if 500 < text.length then text.take 500 ++ "...".data else text }
    let notes' := st.notes ++ [note_entry]
    let classes1 :=
      if (List.lookup class_name st.classes).isSome then st.classes
      else dinsert class_name
        { total_notes := 0, note_types := [], last_updated := timestamp } st.classes
    let ci := (List.lookup class_name classes1).getD
      { total_notes := 0, note_types := [], last_updated := timestamp }
    let ci' : ClassInfo :=
      { total_notes := ci.total_notes + 1
        note_types :=
          dinsert note_type ((List.lookup note_type ci.note_types).getD 0 + 1) ci.note_types
        last_updated := timestamp }
    some { notes := notes', classes := dinsert class_name ci' classes1 }

/-- The store mutation performed by `SBNotesWeb.upload_notes`
(`sbnotes_web.py` lines 282-334).  The web form first rejects an empty
class name (`if not class_name: st.error(...); return`); the remaining
store mutation duplicates the terminal code line for line. -/
def upload_notes_web (st : Store) (class_name note_type timestamp : PyStr)
    (text : PyStr) (analysis : Analysis) : Option Store :=
  if class_name = [] then none
  else if pyStrip text = [] then none
  else
    let note_id := class_name ++ "_".data ++ timestamp
    let upload_path := "uploads/".data ++ note_id ++ ".pdf".data
    let note_entry : NoteEntry :=
      { id := note_id
        class_name := class_name
        note_type := note_type
        upload_date := timestamp
        file_path := upload_path
        analysis := analysis
        text_preview := if 500 < text.length then text.take 500 ++ "...".data else text }
    let notes' := st.notes ++ [note_entry]
    let classes1 :=
      if (List.lookup class_name st.classes).isSome then st.classes
      else dinsert class_name
        { total_notes := 0, note_types := [], last_updated := timestamp } st.classes
    let ci := (List.lookup class_name classes1).getD
      { total_notes := 0, note_types := [], last_updated := timestamp }
    let ci' : ClassInfo :=
      { total_notes := ci.total_notes + 1
        note_types :=
          dinsert note_type ((List.lookup note_type ci.note_types).getD 0 + 1) ci.note_types
        last_updated := timestamp }
    some { notes := notes', classes := dinsert class_name ci' classes1 }

/-- Outcome of the vision-OCR call in `_extract_text_with_vision`:
either the model's transcription text, or the message of the exception
raised by the call. -/
inductive VisionOutcome where
  | ok (text : PyStr)
  | raised (msg : PyStr)
deriving DecidableEq

/-- `_extract_text_with_vision` (identical in both front ends): returns
the model response's text, or, when the call raises, the string
`"PDF document processing failed: " + str(e)` — never an exception. -/
def extract_text_with_vision : VisionOutcome → PyStr
  | .ok t => t
  | .raised e => "PDF document processing failed: ".data ++ e

/-- A PDF as seen by the primary (PyPDF2) extraction path: the text of
each page's text layer, plus whether the primary path raises an
exception while reading. -/
structure PdfDoc where
  pages : List PyStr
  primary_raises : Bool
deriving DecidableEq

/-- The page-concatenation loop of `_extract_text_from_pdf`: pages whose
text is non-blank are appended, each followed by `"\n"`. -/
def concatPages (pages : List PyStr) : PyStr :=
  pages.foldl (fun acc p => if pyStrip p = [] then acc else acc ++ p ++ "\n".data) []

/-- `_extract_text_from_pdf` (identical logic in both front ends):
primary text-layer extraction, returned when the trimmed concatenation
exceeds 50 characters; otherwise — and on any exception in the primary
path — the vision-OCR fallback. -/
def extract_text_from_pdf (doc : PdfDoc) (v : VisionOutcome) : PyStr :=
  if doc.primary_raises then extract_text_with_vision v
  else
    let text := concatPages doc.pages
    if 50 < (pyStrip text).length then text
    else extract_text_with_vision v

/-- The code-fence stripping of `_analyze_notes_with_ai`:
`response_text = raw.strip()`, drop a leading ```` ```json ````, drop a
trailing ```` ``` ````, strip again.  Python `[:-3]` is `take (len-3)`. -/
def stripCodeFences (raw : PyStr) : PyStr :=
  let t := pyStrip raw
  let t := if ("```json".data).isPrefixOf t then t.drop 7 else t
  let t := if ("```".data).isSuffixOf t then t.take (t.length - 3) else t
  pyStrip t

/-- The degraded record `_analyze_notes_with_ai` builds when the model
response is not valid JSON. -/
def degradedAnalysis (raw : PyStr) : Analysis :=
  { summary := raw.take 200 ++ "...".data
    key_topics := ["Extracted from AI analysis".data]
    important_concepts := ["See full analysis".data]
    difficulty_level := "Unknown".data
    estimated_study_time := "Unknown".data
    related_topics := []
    transcription_quality := "Unknown".data }

/-- The record `_analyze_notes_with_ai` returns when the model call
itself raises. -/
def failedAnalysis : Analysis :=
  { summary := "AI analysis failed".data
    key_topics := []
    important_concepts := []
    difficulty_level := "Unknown".data
    estimated_study_time := "Unknown".data
    related_topics := []
    transcription_quality := "Failed".data }

/-- `_analyze_notes_with_ai` (identical in both front ends), with the
model call's outcome (`none` = the call raised) and `json.loads` —
an external library — passed in as `jsonParse` (`none` = it raises
`json.JSONDecodeError`). -/
def analyze_notes_with_ai (jsonParse : PyStr → Option Analysis)
    (response : Option PyStr) : Analysis :=
  match response with
  | none => failedAnalysis
  | some raw =>
    match jsonParse (stripCodeFences raw) with
    | some a => a
    | none => degradedAnalysis raw

/-- The searchable text of `NoteManager.search_notes`:
`f"{note['class_name']} {note['note_type']} {summary} {key_topics}"`. -/
def searchableText (n : NoteEntry) : PyStr :=
  n.class_name ++ " ".data ++ n.note_type ++ " ".data ++
  n.analysis.summary ++ " ".data ++ pyReprList n.analysis.key_topics

/-- The match test of `NoteManager.search_notes`:
`search_term.lower() in searchable_text.lower()`. -/
def matchesTerm (term : PyStr) (n : NoteEntry) : Bool :=
  decide (pyLower term <:+: pyLower (searchableText n))

/-- The result-collection loop of `NoteManager.search_notes`. -/
def search_results (term : PyStr) (notes : List NoteEntry) : List NoteEntry :=
  notes.foldl (fun acc n => if matchesTerm term n then acc ++ [n] else acc) []

/-- The rows `NoteManager.search_notes` displays: `results[:10]`. -/
def search_displayed (term : PyStr) (notes : List NoteEntry) : List NoteEntry :=
  (search_results term notes).take 10

/-- A unit of content appended to a combined PDF: a generated divider
page for a note, or an original uploaded PDF (by path). -/
inductive PdfPiece where
  | divider (note_id : PyStr)
  | original (path : PyStr)
deriving DecidableEq

/-- Ordering used by `class_notes.sort(key=lambda x: x["upload_date"])`. -/
def dateLe (a b : NoteEntry) : Prop := lexLe a.upload_date b.upload_date = true

instance : DecidableRel dateLe := fun a b => by unfold dateLe; infer_instance

/-- `NoteManager._create_class_pdf`: with no notes for the class it
reports and returns without creating a file (`none`); otherwise it
sorts the class's notes by upload date (Python's stable sort, modelled
by the stable `List.insertionSort`) and merges, for each note, a divider
page and then — only when the file exists — the original PDF.
`fileExists` models `Path(...).exists()`. -/
def create_class_pdf (st : Store) (class_name : PyStr)
    (fileExists : PyStr → Bool) : Option (List PdfPiece) :=
  let class_notes := st.notes.filter (fun n => n.class_name == class_name)
  if class_notes = [] then none
  else
    let sorted := class_notes.insertionSort dateLe
    some (sorted.flatMap (fun n =>
      PdfPiece.divider n.id ::
        (if fileExists n.file_path then [PdfPiece.original n.file_path] else [])))

/-- The merge performed by `SBNotesWeb.generate_pdf` when the button is
pressed: the class's notes in stored list order (no sort, no dividers),
appending each note's original PDF when the file exists; the combined
output file is then written unconditionally — also when no note
matched, in which case an empty merge is written. -/
def generate_pdf_web (st : Store) (selected_class : PyStr)
    (fileExists : PyStr → Bool) : Option (List PdfPiece) :=
  let class_notes := st.notes.filter (fun n => n.class_name == selected_class)
  some (class_notes.foldl (fun acc n =>
    if fileExists n.file_path then acc ++ [PdfPiece.original n.file_path] else acc) [])

/-- The store invariant stated in spec §3: every note record's class
name is a key of the `classes` dict, and every class aggregate's
`total_notes` equals the number of note records with that class name. -/
def storeInvariant (st : Store) : Prop :=
  (∀ n ∈ st.notes, (List.lookup n.class_name st.classes).isSome = true) ∧
  (∀ c ci, List.lookup c st.classes = some ci →
    ci.total_notes = (st.notes.filter (fun n => n.class_name == c)).length)

/-- A sample analysis record used to instantiate theorems on concrete
inputs. -/
def sampleAnalysis : Analysis :=
  { summary := "Covers kinetic energy and momentum".data
    key_topics := ["mechanics".data]
    important_concepts := ["KE formula".data]
    difficulty_level := "Intermediate".data
    estimated_study_time := "2 hours".data
    related_topics := []
    transcription_quality := "Good".data }

/-- A sample note record used to instantiate theorems on concrete
inputs. -/
def sampleNote : NoteEntry :=
  { id := "Physics_2024-01-05".data
    class_name := "Physics".data
    note_type := "Notes".data
    upload_date := "2024-01-05".data
    file_path := "uploads/Physics_2024-01-05.pdf".data
    analysis := sampleAnalysis
    text_preview := "Kinetic energy notes".data }

/-- A store whose `classes` dict has a key with no matching note
records (as can arise from a hand-edited or foreign `notes.json`). -/
def storeEmptyClass : Store :=
  { notes := []
    classes := [("Math".data, { total_notes := 0, note_types := [], last_updated := "2024".data })] }

/-- An earlier-dated note listed second in `storeUnsorted`. -/
def noteEarly : NoteEntry :=
  { id := "Math_2024-01-01".data
    class_name := "Math".data
    note_type := "Notes".data
    upload_date := "2024-01-01".data
    file_path := "uploads/Math_2024-01-01.pdf".data
    analysis := sampleAnalysis
    text_preview := "early".data }

/-- A later-dated note listed first in `storeUnsorted`. -/
def noteLate : NoteEntry :=
  { id := "Math_2024-02-01".data
    class_name := "Math".data
    note_type := "Homework".data
    upload_date := "2024-02-01".data
    file_path := "uploads/Math_2024-02-01.pdf".data
    analysis := sampleAnalysis
    text_preview := "late".data }

/-- A store whose notes list is not in ascending upload-date order. -/
def storeUnsorted : Store :=
  { notes := [noteLate, noteEarly]
    classes := [("Math".data, { total_notes := 2, note_types := [("Notes".data, 1), ("Homework".data, 1)], last_updated := "2024-02-01".data })] }

/-! ### Helper lemmas -/

theorem lookup_dinsert_self {α : Type} (k : PyStr) (v : α) (l : List (PyStr × α)) :
    List.lookup k (dinsert k v l) = some v := by
  induction l with
  | nil => simp [dinsert, List.lookup]
  | cons p rest ih =>
    obtain ⟨k', v'⟩ := p
    by_cases h : k = k'
    · subst h; simp [dinsert, List.lookup]
    · have hb : (k == k') = false := beq_eq_false_iff_ne.mpr h
      simp [dinsert, List.lookup, hb, ih]

theorem lookup_dinsert_ne {α : Type} (k k' : PyStr) (v : α) (l : List (PyStr × α))
    (h : k' ≠ k) : List.lookup k' (dinsert k v l) = List.lookup k' l := by
  have hb : (k' == k) = false := beq_eq_false_iff_ne.mpr h
  induction l with
  | nil => simp [dinsert, List.lookup, hb]
  | cons p rest ih =>
    obtain ⟨k'', v''⟩ := p
    by_cases hk : k = k''
    · subst hk; simp [dinsert, List.lookup, hb, ih]
    · have hb' : (k == k'') = false := beq_eq_false_iff_ne.mpr hk
      simp [dinsert, List.lookup, hb', ih]

theorem lookup_dinsert_isSome {α : Type} (k k' : PyStr) (v : α) (l : List (PyStr × α))
    (h : (List.lookup k' l).isSome = true) :
    (List.lookup k' (dinsert k v l)).isSome = true := by
  by_cases hk : k' = k
  · subst hk; rw [lookup_dinsert_self]; rfl
  · rw [lookup_dinsert_ne _ _ _ _ hk]; exact h

theorem pyStrip_cons_ne_nil (c : Char) (l : PyStr) (h : isPySpace c = false) :
    pyStrip (c :: l) ≠ [] := by
  unfold pyStrip pyRStrip pyLStrip
  rw [List.dropWhile_cons, h]
  simp only [Bool.false_eq_true, if_false]
  intro hnil
  rw [List.reverse_eq_nil_iff, List.dropWhile_eq_nil_iff] at hnil
  have := hnil c (by simp)
  rw [h] at this
  exact Bool.false_ne_true this

theorem foldl_collect {α β : Type} (q : α → Bool) (g : α → β) :
    ∀ (l : List α) (acc : List β),
      l.foldl (fun acc n => if q n then acc ++ [g n] else acc) acc =
        acc ++ (l.filter q).map g := by
  intro l
  induction l with
  | nil => intro acc; simp
  | cons x xs ih =>
    intro acc
    by_cases hx : q x = true
    · simp [List.foldl_cons, hx, ih]
    · simp only [Bool.not_eq_true] at hx
      simp [List.foldl_cons, hx, ih]

theorem foldl_collect_id {α : Type} (q : α → Bool) :
    ∀ (l : List α) (acc : List α),
      l.foldl (fun acc n => if q n then acc ++ [n] else acc) acc =
        acc ++ l.filter q := by
  intro l
  induction l with
  | nil => intro acc; simp
  | cons x xs ih =>
    intro acc
    by_cases hx : q x = true
    · simp [List.foldl_cons, hx, ih]
    · simp only [Bool.not_eq_true] at hx
      simp [List.foldl_cons, hx, ih]

theorem lexLe_total : ∀ (a b : PyStr), lexLe a b = true ∨ lexLe b a = true
  | [], _ => Or.inl rfl
  | _ :: _, [] => Or.inr rfl
  | a :: as, b :: bs => by
    rcases Nat.lt_trichotomy a.toNat b.toNat with h | h | h
    · left; simp [lexLe, h]
    · rcases lexLe_total as bs with ih | ih
      · left; simp [lexLe, h, Nat.lt_irrefl, ih]
      · right; simp [lexLe, h, Nat.lt_irrefl, ih]
    · right; simp [lexLe, h]

theorem lexLe_trans : ∀ (a b c : PyStr),
    lexLe a b = true → lexLe b c = true → lexLe a c = true
  | [], _, _, _, _ => rfl
  | _ :: _, [], _, h1, _ => absurd h1 (by simp [lexLe])
  | _ :: _, _ :: _, [], _, h2 => absurd h2 (by simp [lexLe])
  | a :: as, b :: bs, c :: cs, h1, h2 => by
    simp only [lexLe] at h1 h2 ⊢
    split_ifs at h1 h2 ⊢ <;>
      first
        | rfl
        | omega
        | (exact lexLe_trans as bs cs h1 h2)

instance : IsTotal NoteEntry dateLe :=
  ⟨fun a b => by unfold dateLe; exact lexLe_total _ _⟩

instance : IsTrans NoteEntry dateLe :=
  ⟨fun a b c => by unfold dateLe; exact lexLe_trans _ _ _⟩

/-! ### Claim theorems -/

theorem upload_notes_web_eq (st : Store) (c nt ts text : PyStr) (an : Analysis)
    (hc : c ≠ []) :
    upload_notes_web st c nt ts text an = upload_notes st c nt ts text an := by
  unfold upload_notes_web upload_notes
  rw [if_neg hc]

/-- C1: each completed upload preserves the store invariant (every
note's class name is a `classes` key whose `total_notes` equals the
number of note records with that class name), in both front ends. -/
theorem C1_upload_preserves_class_counts (st st' : Store) (c nt ts text : PyStr)
    (an : Analysis) :
    (upload_notes st c nt ts text an = some st' →
      storeInvariant st → storeInvariant st') ∧
    (upload_notes_web st c nt ts text an = some st' →
      storeInvariant st → storeInvariant st') := by
  have main : upload_notes st c nt ts text an = some st' →
      storeInvariant st → storeInvariant st' := by
    intro h hInv
    by_cases ht : pyStrip text = []
    · simp [upload_notes, ht] at h
    · unfold upload_notes at h
      rw [if_neg ht] at h
      simp only [Option.some.injEq] at h
      subst h
      cases hk : (List.lookup c st.classes).isSome with
      | true =>
        -- the class aggregate already exists
        obtain ⟨ci1, hci1⟩ := Option.isSome_iff_exists.mp hk
        constructor
        · intro n hn
          rcases List.mem_append.1 hn with hn | hn
          · have hs := hInv.1 n hn
            simp only [hk, eq_self_iff_true, if_true]
            exact lookup_dinsert_isSome _ _ _ _ hs
          · simp only [List.mem_singleton] at hn
            subst hn
            simp only [hk, eq_self_iff_true, if_true]
            rw [lookup_dinsert_self]
            rfl
        · intro name ci0 hl
          simp only [hk, eq_self_iff_true, if_true] at hl ⊢
          by_cases hname : name = c
          · rw [hname] at hl ⊢
            rw [lookup_dinsert_self] at hl
            simp only [Option.some.injEq] at hl
            subst hl
            rw [List.filter_append]
            simp only [List.filter_cons, List.filter_nil, beq_self_eq_true, if_true,
              hci1, Option.getD_some]
            have hc1 := hInv.2 c ci1 hci1
            simp [hc1]
          · rw [lookup_dinsert_ne _ _ _ _ hname] at hl
            have hc1 := hInv.2 name ci0 hl
            rw [List.filter_append]
            have hne : (c == name) = false := beq_eq_false_iff_ne.mpr fun e => hname e.symm
            simp [hc1, hne]
      | false =>
        -- the class aggregate is created first
        have hkf : (List.lookup c st.classes).isSome = false := hk
        have hnone : List.lookup c st.classes = none := by
          cases hcase : List.lookup c st.classes with
          | none => rfl
          | some x => rw [hcase] at hkf; cases hkf
        have hzero : st.notes.filter (fun n => n.class_name == c) = [] := by
          rw [List.filter_eq_nil_iff]
          intro n hn hmatch
          have hcnc : n.class_name = c := by simpa using hmatch
          have hs := hInv.1 n hn
          rw [hcnc, hnone] at hs
          cases hs
        constructor
        · intro n hn
          rcases List.mem_append.1 hn with hn | hn
          · have hs := hInv.1 n hn
            simp only [hkf, Bool.false_eq_true, if_false]
            exact lookup_dinsert_isSome _ _ _ _ (lookup_dinsert_isSome _ _ _ _ hs)
          · simp only [List.mem_singleton] at hn
            subst hn
            simp only [hkf, Bool.false_eq_true, if_false]
            rw [lookup_dinsert_self]
            rfl
        · intro name ci0 hl
          simp only [hkf, Bool.false_eq_true, if_false] at hl ⊢
          by_cases hname : name = c
          · rw [hname] at hl ⊢
            rw [lookup_dinsert_self] at hl
            simp only [Option.some.injEq] at hl
            subst hl
            rw [List.filter_append]
            simp only [List.filter_cons, List.filter_nil, beq_self_eq_true, if_true,
              lookup_dinsert_self, Option.getD_some]
            simp [hzero]
          · rw [lookup_dinsert_ne _ _ _ _ hname,
              lookup_dinsert_ne _ _ _ _ hname] at hl
            have hc1 := hInv.2 name ci0 hl
            rw [List.filter_append]
            have hne : (c == name) = false := beq_eq_false_iff_ne.mpr fun e => hname e.symm
            simp [hc1, hne]
  refine ⟨main, fun h => ?_⟩
  by_cases hc : c = []
  · subst hc; simp [upload_notes_web] at h
  · rw [upload_notes_web_eq st _ nt ts text an hc] at h
    exact main h

/-- C1 witness: a concrete completed upload into an empty store yields
a store satisfying the invariant. -/
theorem C1_upload_preserves_class_counts_witness :
    storeInvariant
      { notes := [{ id := "M_1".data, class_name := "M".data, note_type := "N".data,
                    upload_date := "1".data, file_path := "uploads/M_1.pdf".data,
                    analysis := sampleAnalysis, text_preview := "hi".data }]
        classes := [("M".data,
          { total_notes := 1, note_types := [("N".data, 1)], last_updated := "1".data })] } :=
  (C1_upload_preserves_class_counts ⟨[], []⟩ _ "M".data "N".data "1".data "hi".data
      sampleAnalysis).1 (by decide)
    (by constructor
        · intro n hn; cases hn
        · intro c ci h; cases h)

/-- C2: for every upload where the extracted text is empty after
trimming, the upload is aborted in both front ends: the result is
`none`, i.e. the store is left exactly as it was — no note record
appended, no class aggregate created or modified, and `_save_notes` is
never reached, so nothing is persisted. -/
theorem C2_empty_text_aborts (st : Store) (c nt ts text : PyStr) (an : Analysis)
    (h : pyStrip text = []) :
    upload_notes st c nt ts text an = none ∧
    upload_notes_web st c nt ts text an = none := by
  refine ⟨by simp [upload_notes, h], ?_⟩
  by_cases hc : c = [] <;> simp [upload_notes_web, h, hc]

/-- C2 witness: a concrete aborted upload (whitespace-only extracted
text) in both front ends. -/
theorem C2_empty_text_aborts_witness :
    upload_notes ⟨[], []⟩ "Math".data "Notes".data "2024".data "  ".data sampleAnalysis = none ∧
    upload_notes_web ⟨[], []⟩ "Math".data "Notes".data "2024".data "  ".data sampleAnalysis = none :=
  C2_empty_text_aborts ⟨[], []⟩ "Math".data "Notes".data "2024".data "  ".data sampleAnalysis
    (by decide)

/-- C7: an upload whose class name is not yet a `classes` key creates a
new class aggregate with `total_notes = 1`, `note_types` containing
exactly the uploaded note's type with count 1, and `last_updated` equal
to the upload timestamp, in both front ends. -/
theorem C7_new_class_aggregate (st : Store) (c nt ts text : PyStr) (an : Analysis)
    (hnew : List.lookup c st.classes = none) (ht : pyStrip text ≠ []) :
    ∃ st', upload_notes st c nt ts text an = some st' ∧
      List.lookup c st'.classes =
        some { total_notes := 1, note_types := [(nt, 1)], last_updated := ts } ∧
      (c ≠ [] → upload_notes_web st c nt ts text an = some st') := by
  have hs : (upload_notes st c nt ts text an).isSome = true := by
    unfold upload_notes
    rw [if_neg ht]
    rfl
  obtain ⟨st', hst'⟩ := Option.isSome_iff_exists.mp hs
  refine ⟨st', hst', ?_, fun hc => by
    rw [upload_notes_web_eq st c nt ts text an hc]; exact hst'⟩
  unfold upload_notes at hst'
  rw [if_neg ht] at hst'
  simp only [Option.some.injEq] at hst'
  subst hst'
  have hkf : (List.lookup c st.classes).isSome = false := by rw [hnew]; rfl
  simp only [hkf, Bool.false_eq_true, if_false, lookup_dinsert_self, Option.getD_some]
  rfl

/-- C7 witness: uploading into an empty store creates the singleton
aggregate. -/
theorem C7_new_class_aggregate_witness :
    ∃ st', upload_notes ⟨[], []⟩ "Math".data "Notes".data "2024".data "hello".data
        sampleAnalysis = some st' ∧
      List.lookup "Math".data st'.classes =
        some { total_notes := 1, note_types := [("Notes".data, 1)],
               last_updated := "2024".data } ∧
      ("Math".data ≠ [] → upload_notes_web ⟨[], []⟩ "Math".data "Notes".data "2024".data
        "hello".data sampleAnalysis = some st') :=
  C7_new_class_aggregate ⟨[], []⟩ "Math".data "Notes".data "2024".data "hello".data
    sampleAnalysis rfl (by decide)

/-- C9: the note record appended by a completed upload stores as
`text_preview` the full extracted text when it has at most 500
characters, and exactly the first 500 characters followed by `"..."`
when it is longer, in both front ends. -/
theorem C9_text_preview (st : Store) (c nt ts text : PyStr) (an : Analysis)
    (ht : pyStrip text ≠ []) :
    ∃ st' e, upload_notes st c nt ts text an = some st' ∧
      st'.notes.getLast? = some e ∧
      (text.length ≤ 500 → e.text_preview = text) ∧
      (500 < text.length → e.text_preview = text.take 500 ++ "...".data) ∧
      (c ≠ [] → upload_notes_web st c nt ts text an = some st') := by
  have hs : (upload_notes st c nt ts text an).isSome = true := by
    unfold upload_notes
    rw [if_neg ht]
    rfl
  obtain ⟨st', hst'⟩ := Option.isSome_iff_exists.mp hs
  have hweb : c ≠ [] → upload_notes_web st c nt ts text an = some st' := fun hc => by
    rw [upload_notes_web_eq st c nt ts text an hc]; exact hst'
  have hup := hst'
  unfold upload_notes at hst'
  rw [if_neg ht] at hst'
  simp only [Option.some.injEq] at hst'
  subst hst'
  refine ⟨_,
    { id := c ++ "_".data ++ ts, class_name := c, note_type := nt, upload_date := ts,
      file_path := "uploads/".data ++ (c ++ "_".data ++ ts) ++ ".pdf".data,
      analysis := an,
      text_preview := if 500 < text.length then text.take 500 ++ "...".data else text },
    hup, ?_, ?_, ?_, hweb⟩
  · show (st.notes ++ [_]).getLast? = some _
    rw [List.getLast?_concat]
  · intro h5
    show (if 500 < text.length then text.take 500 ++ "...".data else text) = text
    rw [if_neg (Nat.not_lt.mpr h5)]
  · intro h5
    show (if 500 < text.length then text.take 500 ++ "...".data else text) =
      text.take 500 ++ "...".data
    rw [if_pos h5]

/-- C9 witness: a short text is stored whole; a long text is truncated
to 500 characters plus an ellipsis. -/
theorem C9_text_preview_witness :
    ∃ st' e, upload_notes ⟨[], []⟩ "Math".data "Notes".data "2024".data "hello".data
        sampleAnalysis = some st' ∧
      st'.notes.getLast? = some e ∧
      ("hello".data.length ≤ 500 → e.text_preview = "hello".data) ∧
      (500 < "hello".data.length →
        e.text_preview = "hello".data.take 500 ++ "...".data) ∧
      ("Math".data ≠ [] → upload_notes_web ⟨[], []⟩ "Math".data "Notes".data "2024".data
        "hello".data sampleAnalysis = some st') :=
  C9_text_preview ⟨[], []⟩ "Math".data "Notes".data "2024".data "hello".data
    sampleAnalysis (by decide)

/-- C10: when the vision-OCR fallback raises, the returned failure
string is non-empty after trimming, so the empty-text abort does not
trigger: the upload completes and appends a record whose
`text_preview` begins with the failure marker
`"PDF document processing failed: "`, in both front ends. -/
theorem C10_failure_marker_upload (st : Store) (c nt ts msg : PyStr) (an : Analysis) :
    pyStrip (extract_text_with_vision (.raised msg)) ≠ [] ∧
    ∃ st' e,
      upload_notes st c nt ts (extract_text_with_vision (.raised msg)) an = some st' ∧
      st'.notes.getLast? = some e ∧
      "PDF document processing failed: ".data <+: e.text_preview ∧
      (c ≠ [] →
        upload_notes_web st c nt ts (extract_text_with_vision (.raised msg)) an = some st') := by
  have hm : "PDF document processing failed: ".data =
      'P' :: "DF document processing failed: ".data := by decide
  have hcons : extract_text_with_vision (.raised msg) =
      'P' :: ("DF document processing failed: ".data ++ msg) := by
    show "PDF document processing failed: ".data ++ msg = _
    rw [hm]
    rfl
  have ht : pyStrip (extract_text_with_vision (.raised msg)) ≠ [] := by
    rw [hcons]
    exact pyStrip_cons_ne_nil _ _ (by decide)
  refine ⟨ht, ?_⟩
  have hs : (upload_notes st c nt ts (extract_text_with_vision (.raised msg)) an).isSome
      = true := by
    unfold upload_notes
    rw [if_neg ht]
    rfl
  obtain ⟨st', hst'⟩ := Option.isSome_iff_exists.mp hs
  have hweb : c ≠ [] →
      upload_notes_web st c nt ts (extract_text_with_vision (.raised msg)) an = some st' :=
    fun hc => by rw [upload_notes_web_eq st c nt ts _ an hc]; exact hst'
  have hup := hst'
  unfold upload_notes at hst'
  rw [if_neg ht] at hst'
  simp only [Option.some.injEq] at hst'
  subst hst'
  refine ⟨_,
    { id := c ++ "_".data ++ ts, class_name := c, note_type := nt, upload_date := ts,
      file_path := "uploads/".data ++ (c ++ "_".data ++ ts) ++ ".pdf".data,
      analysis := an,
      text_preview :=
        if 500 < (extract_text_with_vision (.raised msg)).length
        then (extract_text_with_vision (.raised msg)).take 500 ++ "...".data
        else extract_text_with_vision (.raised msg) },
    hup, ?_, ?_, hweb⟩
  · show (st.notes ++ [_]).getLast? = some _
    rw [List.getLast?_concat]
  · by_cases h5 : 500 < (extract_text_with_vision (.raised msg)).length
    · show "PDF document processing failed: ".data <+:
        (if 500 < (extract_text_with_vision (.raised msg)).length
          then (extract_text_with_vision (.raised msg)).take 500 ++ "...".data
          else extract_text_with_vision (.raised msg))
      rw [if_pos h5]
      show "PDF document processing failed: ".data <+:
        ("PDF document processing failed: ".data ++ msg).take 500 ++ "...".data
      rw [List.take_append_eq_append_take,
        (by decide : List.take 500 ("PDF document processing failed: ".data) =
          "PDF document processing failed: ".data),
        List.append_assoc]
      exact List.prefix_append _ _
    · show "PDF document processing failed: ".data <+:
        (if 500 < (extract_text_with_vision (.raised msg)).length
          then (extract_text_with_vision (.raised msg)).take 500 ++ "...".data
          else extract_text_with_vision (.raised msg))
      rw [if_neg h5]
      exact List.prefix_append _ _

/-- C10 witness: a concrete raising fallback still yields a persisted
record carrying the failure marker. -/
theorem C10_failure_marker_upload_witness :
    pyStrip (extract_text_with_vision (.raised "boom".data)) ≠ [] ∧
    ∃ st' e,
      upload_notes ⟨[], []⟩ "Math".data "Notes".data "2024".data
        (extract_text_with_vision (.raised "boom".data)) sampleAnalysis = some st' ∧
      st'.notes.getLast? = some e ∧
      "PDF document processing failed: ".data <+: e.text_preview ∧
      ("Math".data ≠ [] →
        upload_notes_web ⟨[], []⟩ "Math".data "Notes".data "2024".data
          (extract_text_with_vision (.raised "boom".data)) sampleAnalysis = some st') :=
  C10_failure_marker_upload ⟨[], []⟩ "Math".data "Notes".data "2024".data "boom".data
    sampleAnalysis

/-- C6: text extraction returns the concatenated per-page text exactly
when that text, after trimming, exceeds 50 characters; otherwise —
including when the primary PyPDF2 parse raises — it escalates to the
vision-OCR fallback (`_extract_text_with_vision`). -/
theorem C6_extraction_decision (doc : PdfDoc) (v : VisionOutcome) :
    (doc.primary_raises = false →
      (50 < (pyStrip (concatPages doc.pages)).length →
        extract_text_from_pdf doc v = concatPages doc.pages) ∧
      ((pyStrip (concatPages doc.pages)).length ≤ 50 →
        extract_text_from_pdf doc v = extract_text_with_vision v)) ∧
    (doc.primary_raises = true →
      extract_text_from_pdf doc v = extract_text_with_vision v) := by
  refine ⟨fun hr => ⟨fun hlen => ?_, fun hlen => ?_⟩, fun hr => ?_⟩
  · simp [extract_text_from_pdf, hr, hlen]
  · simp [extract_text_from_pdf, hr, Nat.not_lt.mpr hlen]
  · simp [extract_text_from_pdf, hr]

/-- C6 witness: a document with a long text layer is returned by the
primary path; a blank-page document and a raising document both
escalate to the fallback. -/
theorem C6_extraction_decision_witness :
    extract_text_from_pdf ⟨["This page has a text layer comfortably longer than fifty characters.".data], false⟩ (.ok "t".data) =
      concatPages ["This page has a text layer comfortably longer than fifty characters.".data] ∧
    extract_text_from_pdf ⟨["   ".data], false⟩ (.ok "t".data) =
      extract_text_with_vision (.ok "t".data) ∧
    extract_text_from_pdf ⟨["plenty of text on this page but the parser crashed anyway".data], true⟩ (.ok "t".data) =
      extract_text_with_vision (.ok "t".data) :=
  ⟨(C6_extraction_decision ⟨_, false⟩ _).1 rfl |>.1 (by decide),
   (C6_extraction_decision ⟨_, false⟩ _).1 rfl |>.2 (by decide),
   (C6_extraction_decision ⟨_, true⟩ _).2 rfl⟩

/-- C8: when the model response does not parse as JSON after stripping
Markdown code fences, `_analyze_notes_with_ai` returns the degraded
record — raw response truncated to 200 characters plus `"..."`,
single-item placeholder topic/concept lists, `"Unknown"` difficulty and
study time, empty related topics; `analyze_notes_with_ai` is a total
function, so no exception reaches the caller. -/
theorem C8_degraded_analysis (jsonParse : PyStr → Option Analysis) (raw : PyStr)
    (h : jsonParse (stripCodeFences raw) = none) :
    analyze_notes_with_ai jsonParse (some raw) =
      { summary := raw.take 200 ++ "...".data
        key_topics := ["Extracted from AI analysis".data]
        important_concepts := ["See full analysis".data]
        difficulty_level := "Unknown".data
        estimated_study_time := "Unknown".data
        related_topics := []
        transcription_quality := "Unknown".data } := by
  simp [analyze_notes_with_ai, h, degradedAnalysis]

/-- C8 witness: a parser that rejects everything yields the degraded
record on a concrete response. -/
theorem C8_degraded_analysis_witness :
    analyze_notes_with_ai (fun _ => none) (some "not json".data) =
      { summary := "not json".data.take 200 ++ "...".data
        key_topics := ["Extracted from AI analysis".data]
        important_concepts := ["See full analysis".data]
        difficulty_level := "Unknown".data
        estimated_study_time := "Unknown".data
        related_topics := []
        transcription_quality := "Unknown".data } :=
  C8_degraded_analysis (fun _ => none) "not json".data rfl

/-- C5: terminal search displays exactly the notes whose searchable
concatenation (class name, note type, AI summary, rendered topic list)
contains the term case-insensitively, in original list order capped at
the first ten matches; in particular a term occurring in a note's AI
summary matches that note, and a term contained in no note's
searchable text yields an empty result. -/
theorem C5_search_characterization (term : PyStr) (notes : List NoteEntry) :
    search_displayed term notes = (notes.filter (matchesTerm term)).take 10 ∧
    (∀ n : NoteEntry, pyLower term <:+: pyLower n.analysis.summary →
      matchesTerm term n = true) ∧
    ((∀ n ∈ notes, matchesTerm term n = false) → search_displayed term notes = []) := by
  have hres : search_results term notes = notes.filter (matchesTerm term) := by
    unfold search_results
    rw [foldl_collect_id (matchesTerm term) notes []]
    simp
  refine ⟨by rw [search_displayed, hres], fun n hsum => ?_, fun habs => ?_⟩
  · have h1 : pyLower n.analysis.summary <:+: pyLower (searchableText n) :=
      ⟨pyLower (n.class_name ++ " ".data ++ n.note_type ++ " ".data),
       pyLower (" ".data ++ pyReprList n.analysis.key_topics), by
        unfold pyLower searchableText
        simp [List.map_append, List.append_assoc]⟩
    unfold matchesTerm
    exact decide_eq_true (hsum.trans h1)
  · rw [search_displayed, hres]
    rw [List.filter_eq_nil_iff.mpr fun n hn => by rw [habs n hn]; exact Bool.false_ne_true]
    rfl

/-- C5 witness: a term present only in the sample note's AI summary
matches it; a term absent from its searchable text yields no result. -/
theorem C5_search_characterization_witness :
    matchesTerm "energy".data sampleNote = true ∧
    search_displayed "zzz".data [sampleNote] = [] :=
  ⟨(C5_search_characterization "energy".data [sampleNote]).2.1 sampleNote (by decide),
   (C5_search_characterization "zzz".data [sampleNote]).2.2 (by decide)⟩

/-- C3 counterexample: in the web variant, selecting a class key with
zero matching note records and pressing generate still writes a
combined output file (an empty merge) — the claim's "does not produce
any output file, in both the terminal and web variants" is false at
this store. -/
theorem C3_zero_notes_counterexample :
    storeEmptyClass.notes.filter (fun n => n.class_name == "Math".data) = [] ∧
    generate_pdf_web storeEmptyClass "Math".data (fun _ => false) = some [] := by
  decide

/-- C3 amended: for a class with zero matching note records the
terminal variant reports that no notes were found and produces no
output file; the web variant does not abort — it writes the combined
output file regardless, which with zero notes is an empty merge. -/
theorem C3_zero_notes_amended (st : Store) (c : PyStr) (fileExists : PyStr → Bool)
    (h : st.notes.filter (fun n => n.class_name == c) = []) :
    create_class_pdf st c fileExists = none ∧
    generate_pdf_web st c fileExists = some [] := by
  constructor
  · unfold create_class_pdf
    simp [h]
  · unfold generate_pdf_web
    simp [h]

/-- C3 amended witness: the concrete zero-note class. -/
theorem C3_zero_notes_amended_witness :
    create_class_pdf storeEmptyClass "Math".data (fun _ => false) = none ∧
    generate_pdf_web storeEmptyClass "Math".data (fun _ => false) = some [] :=
  C3_zero_notes_amended storeEmptyClass "Math".data (fun _ => false) (by decide)

/-- C4 counterexample: with the class's records stored out of date
order, the web variant concatenates the originals in stored list order
— the later-dated note first — so "concatenates the original PDFs in
date order" is false at this store. -/
theorem C4_web_order_counterexample :
    generate_pdf_web storeUnsorted "Math".data (fun _ => true) =
      some [PdfPiece.original noteLate.file_path,
            PdfPiece.original noteEarly.file_path] ∧
    lexLe noteLate.upload_date noteEarly.upload_date = false := by
  decide

/-- C4 amended: for a class with at least one note record, the terminal
variant merges, in ascending upload-date order (a permutation of the
class's records sorted by date), a divider page per note followed by
the original PDF whenever the file exists; the web variant concatenates
the existing originals in stored list order, without sorting by date. -/
theorem C4_combined_pdf_assembly (st : Store) (c : PyStr) (fileExists : PyStr → Bool)
    (h : st.notes.filter (fun n => n.class_name == c) ≠ []) :
    (∃ sorted : List NoteEntry, sorted.Perm (st.notes.filter (fun n => n.class_name == c)) ∧
      sorted.Pairwise dateLe ∧
      create_class_pdf st c fileExists = some (sorted.flatMap (fun n =>
        PdfPiece.divider n.id ::
          (if fileExists n.file_path then [PdfPiece.original n.file_path] else [])))) ∧
    generate_pdf_web st c fileExists =
      some (((st.notes.filter (fun n => n.class_name == c)).filter
          (fun n => fileExists n.file_path)).map
        (fun n => PdfPiece.original n.file_path)) := by
  constructor
  · refine ⟨(st.notes.filter (fun n => n.class_name == c)).insertionSort dateLe,
      List.perm_insertionSort dateLe _, List.sorted_insertionSort dateLe _, ?_⟩
    unfold create_class_pdf
    simp [h]
  · have hfc := foldl_collect (fun n : NoteEntry => fileExists n.file_path)
      (fun n : NoteEntry => PdfPiece.original n.file_path)
      (st.notes.filter (fun n => n.class_name == c)) []
    unfold generate_pdf_web
    show some ((st.notes.filter (fun n => n.class_name == c)).foldl
        (fun acc n =>
          if fileExists n.file_path then acc ++ [PdfPiece.original n.file_path] else acc)
        []) = _
    rw [hfc]
    simp

/-- C4 amended witness: the concrete out-of-order store. -/
theorem C4_combined_pdf_assembly_witness :
    (∃ sorted : List NoteEntry, sorted.Perm (storeUnsorted.notes.filter
        (fun n => n.class_name == "Math".data)) ∧
      sorted.Pairwise dateLe ∧
      create_class_pdf storeUnsorted "Math".data (fun _ => true) =
        some (sorted.flatMap (fun n =>
          PdfPiece.divider n.id ::
            (if (fun _ => true) n.file_path
              then [PdfPiece.original n.file_path] else [])))) ∧
    generate_pdf_web storeUnsorted "Math".data (fun _ => true) =
      some (((storeUnsorted.notes.filter (fun n => n.class_name == "Math".data)).filter
          (fun n => (fun _ => true) n.file_path)).map
        (fun n => PdfPiece.original n.file_path)) :=
  C4_combined_pdf_assembly storeUnsorted "Math".data (fun _ => true) (by decide)

end SBNotes
